import Mathlib

/-!
Verification of the GRS_PA02 copy-strategy benchmark clients
(MT25062_Part_A1_Client.c, MT25062_Part_A2_Client.c, MT25062_Part_A3_Client.c).

The three clients share a message model: a message of `msg_size` bytes is
split into `NUM_FIELDS = 8` heap fields of `field_size = msg_size / 8` bytes,
field `i` filled with the byte `'A' + i`.  The two-copy client (A1)
serializes the fields into a contiguous buffer and calls `send_all`; the
one-copy client (A2) gathers the fields with `sendmsg`/iovec; the zero-copy
client (A3) gathers with `sendmsg(MSG_ZEROCOPY)` and drains completion
notifications from the socket error queue.

The embedding below models, from the source:
  - the per-iteration wire bytes of each strategy (a byte the program never
    wrote - the uninitialized tail of the A1 send buffer - is `none`);
  - the order of observable worker events (connect, config handshake,
    message allocation, abort) in `client_thread`;
  - `send_all` as a trace-driven function over the kernel responses to the
    individual `send` calls;
  - the A1 and A2 send loops over kernel-response traces;
  - the zero-copy completion machinery as a step relation with a ghost
    outstanding-completion counter;
  - the metrics aggregation of `main` / `print_results` over exact
    rationals.
-/

set_option autoImplicit false

namespace MT25062

/-! ## Message store (alloc_message, all three clients) -/

/-- Number of string fields in `message_t` (`NUM_FIELDS` in the C source). -/
def NUM_FIELDS : Nat := 8

/-- `field_size = msg_size / NUM_FIELDS` as computed in `alloc_message`
(C integer division truncates; both operands are nonnegative here). -/
def fieldSize (msg_size : Nat) : Nat := msg_size / NUM_FIELDS

/-- The bytes of field `i`: `memset(msg->fields[i], 'A' + i, field_size)`,
with `'A' = 65`. -/
def msgField (field_size i : Nat) : List Nat := List.replicate field_size (65 + i)

/-- Concatenation of the 8 fields in order.  This is both the result of the
A1 serialization loop (which memcpys field `i` to offset `i * field_size`)
and the gather order of the A2/A3 iovec array (entry `i` points at field
`i` with length `field_size`). -/
def serializedFields (field_size : Nat) : List Nat :=
  (List.range NUM_FIELDS).flatMap (fun i => msgField field_size i)

/-- Contents of the A1 send buffer `send_buf` (`malloc(msg_size)`): the
first `8 * field_size` positions hold the serialized fields, the remaining
`msg_size - 8 * field_size` positions are uninitialized (`none`). -/
def a1SendBuf (msg_size : Nat) : List (Option Nat) :=
  (serializedFields (fieldSize msg_size)).map some
    ++ List.replicate (msg_size - NUM_FIELDS * fieldSize msg_size) none

/-- Bytes put on the wire by one successful A1 iteration:
`send_all(sock, send_buf, targs->msg_size, 0)` submits all `msg_size`
bytes of `send_buf`, including the uninitialized tail. -/
def a1IterWire (msg_size : Nat) : List (Option Nat) := a1SendBuf msg_size

/-- Bytes put on the wire by one full A2 iteration:
`sendmsg(sock, &mhdr, 0)` gathers exactly the 8 iovec entries, i.e.
`8 * field_size` bytes; the division remainder is never referenced. -/
def a2IterWire (msg_size : Nat) : List (Option Nat) :=
  (serializedFields (fieldSize msg_size)).map some

/-- Bytes put on the wire by one full A3 iteration: the A3 iovec setup is
identical to A2 (`sendmsg` with `MSG_ZEROCOPY` transmits the same gather
list). -/
def a3IterWire (msg_size : Nat) : List (Option Nat) := a2IterWire msg_size

/-! ## Observable worker events (client_thread, all three clients) -/

/-- Observable actions of `client_thread`, in program order. -/
inductive CEv where
  | connectAttempt
  | setSockOpt
  | sendConfig
  | allocMessage
  | abortExit
  | sendLoop
deriving DecidableEq, Repr

/-- Event order of the A1 `client_thread`: connect (return on failure),
send the config (return on failure), `alloc_message` (which computes
`field_size` and calls `exit(EXIT_FAILURE)` with a diagnostic when
`field_size <= 0`), then the send loop. -/
def a1ClientEvents (msg_size : Nat) (connectOk configOk : Bool) : List CEv :=
  CEv.connectAttempt ::
    (if connectOk then
      CEv.sendConfig ::
        (if configOk then
          CEv.allocMessage ::
            (if fieldSize msg_size = 0 then [CEv.abortExit] else [CEv.sendLoop])
        else [])
    else [])

/-- Event order of the A2 `client_thread`; identical to A1 up to the send
loop body. -/
def a2ClientEvents (msg_size : Nat) (connectOk configOk : Bool) : List CEv :=
  a1ClientEvents msg_size connectOk configOk

/-- Event order of the A3 `client_thread`: as A1 but with the (non-fatal)
`setsockopt(SO_ZEROCOPY)` step between connect and the config handshake. -/
def a3ClientEvents (msg_size : Nat) (connectOk configOk : Bool) : List CEv :=
  CEv.connectAttempt ::
    (if connectOk then
      CEv.setSockOpt :: CEv.sendConfig ::
        (if configOk then
          CEv.allocMessage ::
            (if fieldSize msg_size = 0 then [CEv.abortExit] else [CEv.sendLoop])
        else [])
    else [])

/-- The process aborts strictly before any connection attempt. -/
def abortsBeforeConnect (evs : List CEv) : Prop :=
  CEv.abortExit ∈ evs ∧ evs.indexOf CEv.abortExit < evs.indexOf CEv.connectAttempt

instance (evs : List CEv) : Decidable (abortsBeforeConnect evs) := by
  unfold abortsBeforeConnect; infer_instance

/-! ## Theorems for C1 and C3 -/

theorem serializedFields_length (field_size : Nat) :
    (serializedFields field_size).length = NUM_FIELDS * field_size := by
  simp [serializedFields, msgField, NUM_FIELDS, List.range_succ]
  omega

/-- C1 (amended): when `payload_size` is a multiple of 8, every strategy
transmits, per full iteration, the same stream of exactly
`8 * field_size = payload_size` bytes, every byte written by the program
(field `i` contributes `field_size` copies of `'A' + i`). -/
theorem c1_wire_equal_of_dvd (msg_size : Nat) (hdvd : NUM_FIELDS ∣ msg_size) :
    a1IterWire msg_size = a2IterWire msg_size
      ∧ a3IterWire msg_size = a2IterWire msg_size
      ∧ (a2IterWire msg_size).length = NUM_FIELDS * fieldSize msg_size
      ∧ NUM_FIELDS * fieldSize msg_size = msg_size
      ∧ ∀ b ∈ a1IterWire msg_size, b ≠ none := by
  have hmul : NUM_FIELDS * fieldSize msg_size = msg_size :=
    Nat.mul_div_cancel' hdvd
  have hwire : a1IterWire msg_size = a2IterWire msg_size := by
    unfold a1IterWire a1SendBuf a2IterWire
    rw [hmul]
    simp
  refine ⟨hwire, rfl, ?_, hmul, ?_⟩
  · simp [a2IterWire, serializedFields_length]
  · intro b hb
    rw [hwire] at hb
    simp only [a2IterWire, List.mem_map] at hb
    obtain ⟨a, _, rfl⟩ := hb
    simp

/-- C1 witness: the amended statement evaluated at `payload_size = 16`. -/
theorem c1_wire_equal_witness :
    a1IterWire 16 = a2IterWire 16
      ∧ a3IterWire 16 = a2IterWire 16
      ∧ (a2IterWire 16).length = NUM_FIELDS * fieldSize 16
      ∧ NUM_FIELDS * fieldSize 16 = 16
      ∧ ∀ b ∈ a1IterWire 16, b ≠ none :=
  c1_wire_equal_of_dvd 16 (by decide)

/-- C1 counterexample: at `payload_size = 9` the two-copy client transmits
9 bytes per iteration (the division remainder included, as an
uninitialized byte), not `8 * field_size = 8`, and its wire stream differs
from the scatter-gather one. -/
theorem c1_wire_counterexample :
    (a1IterWire 9).length ≠ NUM_FIELDS * fieldSize 9
      ∧ a1IterWire 9 ≠ a2IterWire 9
      ∧ (a1IterWire 9).length = 9 := by
  decide

/-- C3 (amended): for `payload_size < 8` every client aborts the process
with a diagnostic inside `alloc_message`, identically in all three
strategies, but the abort happens after the connection attempt and the
config handshake, not before: `client_thread` connects and sends the
config first, and only then calls `alloc_message`. -/
theorem c3_abort_after_connect (msg_size : Nat) (h : msg_size < 8) :
    a1ClientEvents msg_size true true
        = [CEv.connectAttempt, CEv.sendConfig, CEv.allocMessage, CEv.abortExit]
      ∧ a2ClientEvents msg_size true true
        = [CEv.connectAttempt, CEv.sendConfig, CEv.allocMessage, CEv.abortExit]
      ∧ a3ClientEvents msg_size true true
        = [CEv.connectAttempt, CEv.setSockOpt, CEv.sendConfig,
            CEv.allocMessage, CEv.abortExit] := by
  have hfs : fieldSize msg_size = 0 := Nat.div_eq_of_lt h
  refine ⟨?_, ?_, ?_⟩ <;>
    simp [a1ClientEvents, a2ClientEvents, a3ClientEvents, hfs]

/-- C3 witness: the amended statement evaluated at `payload_size = 5`. -/
theorem c3_abort_witness :
    a1ClientEvents 5 true true
        = [CEv.connectAttempt, CEv.sendConfig, CEv.allocMessage, CEv.abortExit]
      ∧ a2ClientEvents 5 true true
        = [CEv.connectAttempt, CEv.sendConfig, CEv.allocMessage, CEv.abortExit]
      ∧ a3ClientEvents 5 true true
        = [CEv.connectAttempt, CEv.setSockOpt, CEv.sendConfig,
            CEv.allocMessage, CEv.abortExit] :=
  c3_abort_after_connect 5 (by decide)

/-- C3 counterexample: at `payload_size = 4` (with connect and handshake
succeeding) each client does abort, but the connection attempt strictly
precedes the abort in all three event orders, refuting the claim that the
abort happens before any connection attempt. -/
theorem c3_abort_counterexample :
    (CEv.abortExit ∈ a1ClientEvents 4 true true
        ∧ CEv.abortExit ∈ a2ClientEvents 4 true true
        ∧ CEv.abortExit ∈ a3ClientEvents 4 true true)
      ∧ ¬ abortsBeforeConnect (a1ClientEvents 4 true true)
      ∧ ¬ abortsBeforeConnect (a2ClientEvents 4 true true)
      ∧ ¬ abortsBeforeConnect (a3ClientEvents 4 true true) := by
  decide

/-! ## send_all and the A1 send loop (MT25062_Part_A1_Client.c) -/

/-- Kernel response to one `send` call inside `send_all`. -/
inductive SendResp where
  | acc (n : Nat)
  | eintr
  | epipe
  | econnreset
  | fail
deriving DecidableEq, Repr

/-- Trace-driven model of `send_all(sock, buf, len, flags)`: while
`remaining > 0`, issue a `send`; `acc n` advances the offset by the
accepted byte count (never more than what was requested), `eintr` retries,
any other error returns immediately with -1.  Returns `none` when the
response trace ends before the loop does, otherwise
`some (returnedLen?, chunks)` where the flag records whether the function
returned `len` (true) or -1 (false), and `chunks` lists the
(offset, byte-count) pairs the kernel accepted, in call order. -/
def sendAllAux (len : Nat) : Nat → List SendResp → Option (Bool × List (Nat × Nat))
  | sent, [] => if len ≤ sent then some (true, []) else none
  | sent, SendResp.acc n :: rest =>
      if len ≤ sent then some (true, [])
      else
        (sendAllAux len (sent + min n (len - sent)) rest).map
          (fun r => (r.1, (sent, min n (len - sent)) :: r.2))
  | sent, SendResp.eintr :: rest =>
      if len ≤ sent then some (true, []) else sendAllAux len sent rest
  | sent, SendResp.epipe :: _ =>
      if len ≤ sent then some (true, []) else some (false, [])
  | sent, SendResp.econnreset :: _ =>
      if len ≤ sent then some (true, []) else some (false, [])
  | sent, SendResp.fail :: _ =>
      if len ≤ sent then some (true, []) else some (false, [])

/-- `send_all` proper: `(ssize_t)len` on success, -1 on error, together
with the accepted chunks. -/
def send_all (len : Nat) (resps : List SendResp) : Option (Int × List (Nat × Nat)) :=
  (sendAllAux len 0 resps).map (fun r => (if r.1 then (len : Int) else -1, r.2))

/-- `covers start stop chunks` holds when the chunks are consecutive:
each one begins exactly where the previous ended, starting at `start` and
ending at `stop` (so together they are the byte range `[start, stop)`,
submitted in order with no gap, overlap or repetition). -/
def covers : Nat → Nat → List (Nat × Nat) → Bool
  | s, e, [] => s == e
  | s, e, (off, n) :: cs => (off == s) && covers (s + n) e cs

/-- The A1 send loop over per-iteration response traces: each iteration
serializes and calls `send_all(sock, send_buf, msg_size, 0)`; on success
it adds the returned `msg_size` to `total_bytes` and continues, on -1 it
breaks out of the loop (an exhausted trace contributes nothing).  Returns
the final `total_bytes`. -/
def a1Run (msg_size : Nat) : List (List SendResp) → Nat
  | [] => 0
  | it :: rest =>
      match sendAllAux msg_size 0 it with
      | some (true, _) => msg_size + a1Run msg_size rest
      | _ => 0

/-! ## Theorems for C6 and C9 -/

theorem sendAllAux_covers (len : Nat) (resps : List SendResp) :
    ∀ (sent : Nat) (cs : List (Nat × Nat)), sent ≤ len →
      sendAllAux len sent resps = some (true, cs) → covers sent len cs = true := by
  induction resps with
  | nil =>
      intro sent cs hle h
      simp only [sendAllAux] at h
      split at h
      · obtain ⟨-, rfl⟩ : True ∧ [] = cs := by simpa using h
        have : sent = len := le_antisymm hle (by assumption)
        simp [covers, this]
      · exact absurd h (by simp)
  | cons head rest ih =>
      intro sent cs hle h
      cases head <;> simp only [sendAllAux] at h
      case acc n =>
        split at h
        · obtain ⟨-, rfl⟩ : True ∧ [] = cs := by simpa using h
          have : sent = len := le_antisymm hle (by assumption)
          simp [covers, this]
        · rw [Option.map_eq_some'] at h
          obtain ⟨⟨b, cs2⟩, hrec, heq⟩ := h
          obtain ⟨rfl, rfl⟩ : b = true ∧ (sent, min n (len - sent)) :: cs2 = cs := by
            simpa using heq
          have hle2 : sent + min n (len - sent) ≤ len := by omega
          have := ih (sent + min n (len - sent)) cs2 hle2 hrec
          simp [covers, this]
      case eintr =>
        split at h
        · obtain ⟨-, rfl⟩ : True ∧ [] = cs := by simpa using h
          have : sent = len := le_antisymm hle (by assumption)
          simp [covers, this]
        · exact ih sent cs hle h
      all_goals
        split at h
        · obtain ⟨-, rfl⟩ : True ∧ [] = cs := by simpa using h
          have : sent = len := le_antisymm hle (by assumption)
          simp [covers, this]
        · exact absurd h (by simp)

/-- C6: `send_all` accounts for partial completion.  When it reports
success it has submitted exactly the bytes at offsets `0..len-1`, in
order, resuming from the unsent offset after each partial acceptance
(`covers 0 len`), and returns `len`; an EINTR response is retried
transparently (it leaves the computation unchanged); any other error
makes the current call return -1; and a -1 return makes the caller's
send loop in `client_thread` terminate without counting further bytes
(a broken/reset connection is a graceful loop exit, not a crash). -/
theorem c6_send_all_correct (len : Nat) (resps : List SendResp) :
    (∀ cs, sendAllAux len 0 resps = some (true, cs) →
        covers 0 len cs = true ∧ send_all len resps = some ((len : Int), cs))
      ∧ (∀ sent, sendAllAux len sent (SendResp.eintr :: resps)
            = sendAllAux len sent resps)
      ∧ (∀ sent, sent < len →
          sendAllAux len sent (SendResp.epipe :: resps) = some (false, [])
            ∧ sendAllAux len sent (SendResp.econnreset :: resps) = some (false, [])
            ∧ sendAllAux len sent (SendResp.fail :: resps) = some (false, []))
      ∧ (∀ cs, sendAllAux len 0 resps = some (false, cs) →
          send_all len resps = some ((-1 : Int), cs)
            ∧ ∀ iters, a1Run len (resps :: iters) = 0) := by
  refine ⟨?_, ?_, ?_, ?_⟩
  · intro cs h
    refine ⟨sendAllAux_covers len resps 0 cs (Nat.zero_le len) h, ?_⟩
    simp [send_all, h]
  · intro sent
    by_cases hle : len ≤ sent
    · cases resps with
      | nil => simp [sendAllAux, hle]
      | cons head rest => cases head <;> simp [sendAllAux, hle]
    · simp [sendAllAux, hle]
  · intro sent hlt
    have hle : ¬ len ≤ sent := by omega
    exact ⟨by simp [sendAllAux, hle], by simp [sendAllAux, hle], by simp [sendAllAux, hle]⟩
  · intro cs h
    refine ⟨by simp [send_all, h], ?_⟩
    intro iters
    simp [a1Run, h]

/-- C6 witness: `send_all` over concrete response traces — a partial
acceptance of 3 then 5 bytes covers `[0, 8)` and returns 8; an error after
a partial acceptance returns -1 and stops the A1 loop with no bytes
counted. -/
theorem c6_send_all_witness :
    covers 0 8 [(0, 3), (3, 5)] = true
      ∧ send_all 8 [SendResp.acc 3, SendResp.eintr, SendResp.acc 5]
          = some ((8 : Int), [(0, 3), (3, 5)])
      ∧ send_all 8 [SendResp.acc 3, SendResp.fail] = some ((-1 : Int), [(0, 3)])
      ∧ a1Run 8 [[SendResp.acc 3, SendResp.fail], [SendResp.acc 8]] = 0
      ∧ sendAllAux 8 4 (SendResp.epipe :: []) = some (false, []) := by
  have h1 := (c6_send_all_correct 8 [SendResp.acc 3, SendResp.eintr, SendResp.acc 5]).1
    [(0, 3), (3, 5)] (by decide)
  have h2 := (c6_send_all_correct 8 [SendResp.acc 3, SendResp.fail]).2.2.2
    [(0, 3)] (by decide)
  have h3 := ((c6_send_all_correct 8 []).2.2.1 4 (by decide)).1
  exact ⟨h1.1, h1.2, h2.1, h2.2 [[SendResp.acc 8]], h3⟩

theorem a1Run_mod_eq_zero (msg_size : Nat) (iters : List (List SendResp)) :
    a1Run msg_size iters % msg_size = 0 := by
  induction iters with
  | nil => simp [a1Run]
  | cons it rest ih =>
      simp only [a1Run]
      split
      · simpa using ih
      · simp

/-- C9: in the two-copy client the counter only advances by whole
messages: after any number of loop iterations `total_bytes` is a multiple
of `msg_size`; an iteration whose `send_all` succeeds adds exactly
`msg_size`, and an iteration whose `send_all` returns -1 adds nothing and
ends the loop — even when the kernel had accepted some chunks of that
iteration before the error (partial kernel-level progress is never
counted). -/
theorem c9_two_copy_multiple (msg_size : Nat) (iters : List (List SendResp)) :
    a1Run msg_size iters % msg_size = 0
      ∧ (∀ it rest cs, sendAllAux msg_size 0 it = some (true, cs) →
          a1Run msg_size (it :: rest) = msg_size + a1Run msg_size rest)
      ∧ (∀ it rest cs, sendAllAux msg_size 0 it = some (false, cs) →
          a1Run msg_size (it :: rest) = 0) := by
  refine ⟨a1Run_mod_eq_zero msg_size iters, ?_, ?_⟩
  · intro it rest cs h
    simp [a1Run, h]
  · intro it rest cs h
    simp [a1Run, h]

/-- C9 witness: a run of one full send (8 bytes) followed by an iteration
that fails after 2 accepted bytes totals 8 bytes — a multiple of the
message size; the failed iteration contributed nothing. -/
theorem c9_two_copy_witness :
    a1Run 8 [[SendResp.acc 8], [SendResp.acc 2, SendResp.fail]] % 8 = 0
      ∧ a1Run 8 [[SendResp.acc 8], [SendResp.acc 2, SendResp.fail]]
          = 8 + a1Run 8 [[SendResp.acc 2, SendResp.fail]]
      ∧ a1Run 8 [[SendResp.acc 2, SendResp.fail]] = 0 := by
  have h := c9_two_copy_multiple 8 [[SendResp.acc 8], [SendResp.acc 2, SendResp.fail]]
  exact ⟨h.1,
    h.2.1 [SendResp.acc 8] [[SendResp.acc 2, SendResp.fail]] [(0, 8)] (by decide),
    h.2.2 [SendResp.acc 2, SendResp.fail] [] [(0, 2)] (by decide)⟩

/-! ## Zero-copy send loop and completion accounting (MT25062_Part_A3_Client.c)

The C code keeps no explicit outstanding-completion variable; `counter`
below is the ghost outstanding-completion counter the claims speak about:
incremented on each successful `sendmsg(MSG_ZEROCOPY)`, decremented once
per completion record consumed by `drain_completions` (one successful
`recvmsg(MSG_ERRQUEUE | MSG_DONTWAIT)`).  `inflight` counts completions
the kernel has not yet delivered to the error queue; `errq` counts
delivered records not yet drained. -/

/-- Per-worker state of the A3 send loop with its completion ghost state. -/
structure ZState where
  counter : Int
  inflight : Nat
  errq : Nat
  total_bytes : Nat
  msg_count : Nat
deriving DecidableEq, Repr

/-- State at the top of the A3 send loop. -/
def ZState.init : ZState := ⟨0, 0, 0, 0, 0⟩

/-- `drain_completions(sock)`: a non-blocking loop of
`recvmsg(MSG_ERRQUEUE | MSG_DONTWAIT)` that consumes every record
currently in the error queue and stops at the first failure (an empty
queue).  It consumes exactly the delivered records — completions still in
flight inside the kernel are not waited for. -/
def drain_completions (s : ZState) : ZState :=
  { s with errq := 0, counter := s.counter - (s.errq : Int) }

/-- Events of the A3 send loop: a successful `sendmsg(MSG_ZEROCOPY)`
returning `n` bytes, a `sendmsg` failure with ENOBUFS (the code reacts
with `drain_completions` then `continue`), delivery of one completion
record by the kernel into the error queue, and consumption of one record
by a `recvmsg` inside `drain_completions`. -/
inductive ZEv where
  | sendOk (n : Nat)
  | sendEnobufs
  | deliver
  | drainOne
deriving DecidableEq, Repr

/-- One step of the A3 loop/kernel interaction. -/
def stepZ (s : ZState) : ZEv → ZState
  | ZEv.sendOk n =>
      { s with counter := s.counter + 1, inflight := s.inflight + 1,
               total_bytes := s.total_bytes + n, msg_count := s.msg_count + 1 }
  | ZEv.sendEnobufs => drain_completions s
  | ZEv.deliver =>
      if s.inflight = 0 then s
      else { s with inflight := s.inflight - 1, errq := s.errq + 1 }
  | ZEv.drainOne =>
      if s.errq = 0 then s
      else { s with errq := s.errq - 1, counter := s.counter - 1 }

/-- The A3 worker state after a trace of send/kernel/drain events. -/
def runZ (tr : List ZEv) : ZState := tr.foldl stepZ ZState.init

/-- Completion-accounting invariant: the ghost counter equals the
undelivered in-flight completions plus the undrained error-queue
records. -/
def ZInv (s : ZState) : Prop := s.counter = (s.inflight : Int) + (s.errq : Int)

/-! ## Theorems for C2 and C4 -/

theorem stepZ_inv (s : ZState) (e : ZEv) (h : ZInv s) : ZInv (stepZ s e) := by
  cases e <;> simp only [ZInv, stepZ, drain_completions] at h ⊢
  · push_cast; omega
  · push_cast; omega
  · split <;> rename_i hif
    · exact h
    · simp only [ZInv]
      push_cast [Nat.cast_sub (Nat.one_le_iff_ne_zero.mpr hif)]
      omega
  · split <;> rename_i hif
    · exact h
    · simp only [ZInv]
      push_cast [Nat.cast_sub (Nat.one_le_iff_ne_zero.mpr hif)]
      omega

theorem runZ_inv (tr : List ZEv) : ZInv (runZ tr) := by
  suffices H : ∀ (l : List ZEv) (s : ZState), ZInv s → ZInv (l.foldl stepZ s) by
    exact H tr ZState.init (by simp [ZInv, ZState.init])
  intro l
  induction l with
  | nil => intro s hs; simpa using hs
  | cons e l ih => intro s hs; exact ih (stepZ s e) (stepZ_inv s e hs)

/-- C2 (amended): along every interleaving of sends, kernel deliveries and
per-record drains, the outstanding-completion counter is never negative
(it always equals in-flight plus queued records); a `drain_completions`
empties the delivered records, after which the counter equals exactly the
number of completions the kernel has not yet delivered.  It is zero after
the final unconditional drain precisely when every completion notification
had been delivered before that drain — the drain is non-blocking, so it
cannot force the counter to zero by itself. -/
theorem c2_counter_invariant (tr : List ZEv) :
    0 ≤ (runZ tr).counter
      ∧ (runZ tr).counter = ((runZ tr).inflight : Int) + ((runZ tr).errq : Int)
      ∧ (drain_completions (runZ tr)).errq = 0
      ∧ (drain_completions (runZ tr)).counter = ((runZ tr).inflight : Int) := by
  have h := runZ_inv tr
  simp only [ZInv] at h
  refine ⟨by omega, h, rfl, ?_⟩
  simp only [drain_completions]
  omega

/-- C2 counterexample: a run with one successful zero-copy send whose
completion the kernel has not yet delivered when the loop exits: the final
unconditional `drain_completions` finds an empty error queue and the
outstanding-completion counter stays at 1, not 0. -/
theorem c2_final_drain_counterexample :
    (drain_completions (runZ [ZEv.sendOk 8])).counter ≠ 0
      ∧ (drain_completions (runZ [ZEv.sendOk 8])).counter = 1 := by
  decide

/-- C4: on ENOBUFS the A3 worker drains the completion queue until no more
records are available (the error queue is empty afterwards) and retries
the same iteration: the failed attempt advances neither `total_bytes` nor
the message count, and when the retried send later succeeds with `n`
bytes they are counted exactly once. -/
theorem c4_enobufs_no_double_count (tr : List ZEv) (n : Nat) :
    (runZ (tr ++ [ZEv.sendEnobufs])).total_bytes = (runZ tr).total_bytes
      ∧ (runZ (tr ++ [ZEv.sendEnobufs])).msg_count = (runZ tr).msg_count
      ∧ (runZ (tr ++ [ZEv.sendEnobufs])).errq = 0
      ∧ (runZ (tr ++ [ZEv.sendEnobufs, ZEv.sendOk n])).total_bytes
          = (runZ tr).total_bytes + n
      ∧ (runZ (tr ++ [ZEv.sendEnobufs, ZEv.sendOk n])).msg_count
          = (runZ tr).msg_count + 1 := by
  simp [runZ, List.foldl_append, stepZ, drain_completions]

/-! ## The A2 send loop (MT25062_Part_A2_Client.c) -/

/-- Kernel response to one `sendmsg(sock, &mhdr, 0)` call in the A2
loop. -/
inductive A2Resp where
  | ok (n : Nat)
  | eintr
  | epipe
  | econnreset
  | fail
deriving DecidableEq, Repr

/-- The A2 send loop over a kernel-response trace: a successful `sendmsg`
adds the returned byte count (whatever it is — the code adds `sent` even
when it is short of `8 * field_size`) and one message; EINTR continues;
EPIPE/ECONNRESET or any other error breaks the loop.  Returns
`(total_bytes, msg_count)`. -/
def a2Run : List A2Resp → Nat × Nat
  | [] => (0, 0)
  | A2Resp.ok n :: rest => ((a2Run rest).1 + n, (a2Run rest).2 + 1)
  | A2Resp.eintr :: rest => a2Run rest
  | A2Resp.epipe :: _ => (0, 0)
  | A2Resp.econnreset :: _ => (0, 0)
  | A2Resp.fail :: _ => (0, 0)

/-- A `sendmsg` response is a full-iteration one when it is not a success
of fewer than `8 * field_size` bytes. -/
def fullSend (msg_size : Nat) : A2Resp → Bool
  | A2Resp.ok n => n == NUM_FIELDS * fieldSize msg_size
  | _ => true

/-! ## Theorems for C5 -/

/-- C5 (amended): in the scenario `payload_size = 80000` (so
`field_size = 10000`), every two-copy worker's `bytes_transferred` is
always a multiple of `field_size` (indeed of the whole message size); a
scatter-gather worker's is a multiple of `field_size` provided every
successful `sendmsg` accepted the full `8 * field_size` bytes — the code
adds whatever count `sendmsg` returns, so a partial scatter-gather send
breaks the property (see the counterexample). -/
theorem c5_mod_field_size (iters : List (List SendResp)) (resps : List A2Resp)
    (h : ∀ r ∈ resps, fullSend 80000 r = true) :
    a1Run 80000 iters % fieldSize 80000 = 0
      ∧ (a2Run resps).1 % fieldSize 80000 = 0 := by
  constructor
  · have h80000 := a1Run_mod_eq_zero 80000 iters
    have : fieldSize 80000 = 10000 := by decide
    rw [this]
    omega
  · induction resps with
    | nil => simp [a2Run]
    | cons r rest ih =>
        have hr := h r (List.mem_cons_self r rest)
        have hrest : ∀ x ∈ rest, fullSend 80000 x = true := by
          intro x hx; exact h x (List.mem_cons_of_mem r hx)
        cases r <;> simp only [a2Run]
        case ok n =>
          have hn : n = NUM_FIELDS * fieldSize 80000 := by
            simpa [fullSend] using hr
          have hrec := ih hrest
          have hfs : fieldSize 80000 = 10000 := by decide
          rw [hfs] at hrec ⊢
          subst hn
          simp only [NUM_FIELDS, hfs] at *
          omega
        · exact ih hrest
        all_goals simp

/-- C5 witness: two full 80000-byte sends for the two-copy worker and one
full scatter-gather send followed by a peer reset both leave
`bytes_transferred` divisible by `field_size = 10000`. -/
theorem c5_mod_witness :
    a1Run 80000 [[SendResp.acc 80000], [SendResp.acc 80000]] % fieldSize 80000 = 0
      ∧ (a2Run [A2Resp.ok 80000, A2Resp.epipe]).1 % fieldSize 80000 = 0 :=
  c5_mod_field_size [[SendResp.acc 80000], [SendResp.acc 80000]]
    [A2Resp.ok 80000, A2Resp.epipe] (by decide)

/-- C5 counterexample: a scatter-gather `sendmsg` that accepts only 5 of
the 80000 requested bytes (a short send, possible on a stream socket and
acknowledged by the design as a logged anomaly) is added to
`bytes_transferred` as-is, leaving a total of 5, which is not a multiple
of `field_size = 10000`. -/
theorem c5_scatter_counterexample :
    fieldSize 80000 = 10000
      ∧ (a2Run [A2Resp.ok 5]).1 = 5
      ∧ (a2Run [A2Resp.ok 5]).1 % fieldSize 80000 ≠ 0 := by
  decide

/-! ## Metrics aggregation (print_results and main, identical in the three
clients; real arithmetic modelled over the exact rationals) -/

/-- Per-worker metrics written once by `client_thread` into
`thread_args_t` and read after the join barrier. -/
structure WorkerResult where
  bytes_transferred : Int
  elapsed_time : ℚ
  avg_latency_us : ℚ
deriving DecidableEq, Repr

/-- The formula of `print_results`:
`throughput_gbps = (total_bytes * 8.0) / (elapsed * 1e9)`. -/
def throughput_gbps (total_bytes : Int) (elapsed : ℚ) : ℚ :=
  ((total_bytes : ℚ) * 8) / (elapsed * 1000000000)

/-- The `total_bytes` accumulator of the aggregation loop in `main`. -/
def total_bytes_agg (ws : List WorkerResult) : Int :=
  ws.foldl (fun acc w => acc + w.bytes_transferred) 0

/-- The `max_elapsed` accumulator of the aggregation loop in `main`
(`if (targs[i].elapsed_time > max_elapsed) max_elapsed = ...`, starting
from 0.0). -/
def max_elapsed_agg (ws : List WorkerResult) : ℚ :=
  ws.foldl (fun acc w => if w.elapsed_time > acc then w.elapsed_time else acc) 0

/-- The `total_latency` accumulator of the aggregation loop in `main`
(a sum of the per-worker average latencies). -/
def total_latency_agg (ws : List WorkerResult) : ℚ :=
  ws.foldl (fun acc w => acc + w.avg_latency_us) 0

/-- The throughput figure `main` passes to `print_results`. -/
def report_throughput (ws : List WorkerResult) : ℚ :=
  throughput_gbps (total_bytes_agg ws) (max_elapsed_agg ws)

/-- The aggregate latency of `main`: `total_latency / threads`, where
`threads` is the number of workers. -/
def report_avg_latency (ws : List WorkerResult) : ℚ :=
  total_latency_agg ws / (ws.length : ℚ)

/-- Per-worker average latency recorded by the A1 `client_thread`:
`(msg_count > 0) ? (total_latency / msg_count) : 0.0`. -/
def a1_avg_latency (msg_count : Int) (total_latency : ℚ) : ℚ :=
  if msg_count > 0 then total_latency / (msg_count : ℚ) else 0

/-- Per-worker average latency recorded by the A2 `client_thread`; the
expression is identical to A1. -/
def a2_avg_latency (msg_count : Int) (total_latency : ℚ) : ℚ :=
  if msg_count > 0 then total_latency / (msg_count : ℚ) else 0

/-- Per-worker average latency recorded by the A3 `client_thread`; the
expression is identical to A1. -/
def a3_avg_latency (msg_count : Int) (total_latency : ℚ) : ℚ :=
  if msg_count > 0 then total_latency / (msg_count : ℚ) else 0

/-! ## Theorems for C7, C8 and C10 -/

theorem foldl_add_bytes (ws : List WorkerResult) : ∀ a : Int,
    ws.foldl (fun acc w => acc + w.bytes_transferred) a
      = a + (ws.map WorkerResult.bytes_transferred).sum := by
  induction ws with
  | nil => intro a; simp
  | cons w t ih => intro a; simp [ih, add_assoc]

theorem foldl_add_lat (ws : List WorkerResult) : ∀ a : ℚ,
    ws.foldl (fun acc w => acc + w.avg_latency_us) a
      = a + (ws.map WorkerResult.avg_latency_us).sum := by
  induction ws with
  | nil => intro a; simp
  | cons w t ih => intro a; simp [ih, add_assoc]

theorem step_eq_max (a b : ℚ) : (if b > a then b else a) = max a b := by
  rcases le_or_lt b a with h | h
  · rw [if_neg (not_lt.mpr h), max_eq_left h]
  · rw [if_pos h, max_eq_right h.le]

theorem max_elapsed_foldl (ws : List WorkerResult) : ∀ a : ℚ,
    ws.foldl (fun acc w => if w.elapsed_time > acc then w.elapsed_time else acc) a
      = (ws.map WorkerResult.elapsed_time).foldl max a := by
  induction ws with
  | nil => intro a; simp
  | cons w t ih =>
      intro a
      simp only [List.foldl_cons, List.map_cons]
      rw [ih, step_eq_max]

theorem foldl_max_mem_cons (l : List ℚ) : ∀ a : ℚ, l.foldl max a ∈ a :: l := by
  induction l with
  | nil => intro a; simp
  | cons x t ih =>
      intro a
      rcases List.mem_cons.mp (ih (max a x)) with h | h
      · rcases max_choice a x with hc | hc
        · rw [List.foldl_cons, h, hc]; exact List.mem_cons_self _ _
        · rw [List.foldl_cons, h, hc]
          exact List.mem_cons_of_mem _ (List.mem_cons_self _ _)
      · rw [List.foldl_cons]
        exact List.mem_cons_of_mem _ (List.mem_cons_of_mem _ h)

theorem foldl_max_bounds (l : List ℚ) : ∀ a : ℚ,
    a ≤ l.foldl max a ∧ ∀ x ∈ l, x ≤ l.foldl max a := by
  induction l with
  | nil => intro a; simp
  | cons y t ih =>
      intro a
      obtain ⟨h1, h2⟩ := ih (max a y)
      rw [List.foldl_cons]
      refine ⟨le_trans (le_max_left a y) h1, ?_⟩
      intro x hx
      rcases List.mem_cons.mp hx with rfl | hx
      · exact le_trans (le_max_right a x) h1
      · exact h2 x hx

/-- C7: the aggregated report computes
`throughput_gbps = total_bytes * 8 / (elapsed * 1e9)` with `total_bytes`
the sum of the workers' `bytes_transferred` and `elapsed` the maximum of
the workers' `elapsed_time` (for a nonempty worker list with nonnegative
elapsed times, the loop accumulator is one of the workers' values and
bounds them all); `total_bytes = 1000000000` with `elapsed = 8` yields
exactly 1 Gbps. -/
theorem c7_throughput_formula (ws : List WorkerResult)
    (hne : ws ≠ []) (h0 : ∀ w ∈ ws, 0 ≤ w.elapsed_time) :
    total_bytes_agg ws = (ws.map WorkerResult.bytes_transferred).sum
      ∧ max_elapsed_agg ws ∈ ws.map WorkerResult.elapsed_time
      ∧ (∀ w ∈ ws, w.elapsed_time ≤ max_elapsed_agg ws)
      ∧ report_throughput ws
          = (((ws.map WorkerResult.bytes_transferred).sum : ℚ) * 8)
            / (max_elapsed_agg ws * 1000000000)
      ∧ throughput_gbps 1000000000 8 = 1 := by
  have hbytes : total_bytes_agg ws = (ws.map WorkerResult.bytes_transferred).sum := by
    rw [total_bytes_agg, foldl_add_bytes, zero_add]
  have hmax : max_elapsed_agg ws = (ws.map WorkerResult.elapsed_time).foldl max 0 :=
    max_elapsed_foldl ws 0
  have hbounds := foldl_max_bounds (ws.map WorkerResult.elapsed_time) 0
  have hmem : max_elapsed_agg ws ∈ ws.map WorkerResult.elapsed_time := by
    rcases List.mem_cons.mp
        (by rw [hmax]; exact foldl_max_mem_cons (ws.map WorkerResult.elapsed_time) 0 :
          max_elapsed_agg ws ∈ (0 : ℚ) :: ws.map WorkerResult.elapsed_time) with
      h | h
    · obtain ⟨w0, hw0⟩ := List.exists_mem_of_ne_nil ws hne
      have hle : w0.elapsed_time ≤ max_elapsed_agg ws := by
        rw [hmax]; exact hbounds.2 _ (List.mem_map_of_mem _ hw0)
      have : w0.elapsed_time = max_elapsed_agg ws :=
        le_antisymm hle (h ▸ h0 w0 hw0)
      rw [← this]
      exact List.mem_map_of_mem _ hw0
    · exact h
  refine ⟨hbytes, hmem, ?_, ?_, ?_⟩
  · intro w hw
    rw [hmax]
    exact hbounds.2 _ (List.mem_map_of_mem _ hw)
  · rw [report_throughput, throughput_gbps, hbytes]
  · rw [throughput_gbps]
    norm_num

/-- C7 witness: two workers with 1000 and 500 bytes over 2 and 4 seconds —
the report divides the summed bytes by the larger elapsed time, and the
synthetic input 1000000000 bytes over 8 seconds gives 1 Gbps. -/
theorem c7_throughput_witness :
    max_elapsed_agg [⟨1000, 2, 10⟩, ⟨500, 4, 20⟩]
        ∈ [WorkerResult.mk 1000 2 10, WorkerResult.mk 500 4 20].map
            WorkerResult.elapsed_time
      ∧ report_throughput [⟨1000, 2, 10⟩, ⟨500, 4, 20⟩]
          = ((([WorkerResult.mk 1000 2 10,
                WorkerResult.mk 500 4 20].map WorkerResult.bytes_transferred).sum : ℚ) * 8)
            / (max_elapsed_agg [⟨1000, 2, 10⟩, ⟨500, 4, 20⟩] * 1000000000)
      ∧ throughput_gbps 1000000000 8 = 1 := by
  have h := c7_throughput_formula [⟨1000, 2, 10⟩, ⟨500, 4, 20⟩] (by simp)
    (by intro w hw
        rcases List.mem_cons.mp hw with rfl | hw
        · norm_num
        · rcases List.mem_cons.mp hw with rfl | hw
          · norm_num
          · simp at hw)
  exact ⟨h.2.1, h.2.2.2.1, h.2.2.2.2⟩

/-- C8: the aggregate average latency is the unweighted arithmetic mean of
the per-worker averages — the sum of `avg_latency_us` over the workers
divided by the worker count, with no weighting by bytes; for per-worker
averages 10, 20 and 30 microseconds it equals 20. -/
theorem c8_avg_latency_unweighted (ws : List WorkerResult) :
    report_avg_latency ws
        = (ws.map WorkerResult.avg_latency_us).sum / (ws.length : ℚ)
      ∧ report_avg_latency [⟨0, 0, 10⟩, ⟨0, 0, 20⟩, ⟨0, 0, 30⟩] = 20 := by
  constructor
  · rw [report_avg_latency, total_latency_agg, foldl_add_lat, zero_add]
  · norm_num [report_avg_latency, total_latency_agg]

/-- C10: in every strategy client, a worker with `msg_count = 0` (no
message was successfully sent) reports an average latency of exactly 0,
via the guard `(msg_count > 0) ? (total_latency / msg_count) : 0.0`, not a
division by zero. -/
theorem c10_zero_msgs_zero_latency :
    ∀ t : ℚ, a1_avg_latency 0 t = 0
      ∧ a2_avg_latency 0 t = 0
      ∧ a3_avg_latency 0 t = 0 := by
  intro t
  refine ⟨?_, ?_, ?_⟩ <;> simp [a1_avg_latency, a2_avg_latency, a3_avg_latency]

end MT25062
